import Mathlib

/-!
# Verification of the GAMER particle pool (`src/include/Particle.h`)

Shallow embedding of `struct Particle_t` and its three methods
(`InitVar`, `AddOneParticle`, `RemoveOneParticle`) together with proofs of
the specification's claims about them.

Modelling conventions:
* C `long`/`int` values are modelled as `Int` (no overflow is exercised by
  the claims; sizes stay tiny).
* C `real`/`double` values are modelled as `ℚ` (exact arithmetic; the spec
  states the density round-trip claim "exactly in real arithmetic").
* Heap arrays are modelled as `List`s whose length tracks the allocated
  size; `malloc`/`realloc` produce fresh cells whose (uninitialized) junk
  contents are modelled by `0` — no claim depends on a fresh cell's value.
* `Aux_Error` aborts the process; each call site is modelled as an
  `Except.error` with a distinct tag.  The build modelled is the
  `DEBUG_PARTICLE` (checked) build, so all `#ifdef DEBUG_PARTICLE` checks
  are present.
* The alias pointers `Mass`, `PosX`, … into `ParVar[]` are modelled as the
  view `Particle_t.Mass` (etc. are not needed); the re-assignments after
  `realloc` in the C code are therefore no-ops in the model.
* Out-of-bounds reads/writes are undefined behaviour in C; the model's
  `List.getD`/`List.set` conventions are only relied upon inside the
  bounds established by the well-formedness predicate `WF`.
-/

/-- Constant `PARLIST_GROWTH_FACTOR` (the C double literal `1.1`), the
geometric growth factor used by both `AddOneParticle` and
`RemoveOneParticle` when resizing arrays.  Its exact IEEE-754 binary64
value is 4953959590107546/2^52, slightly above 11/10. -/
def PARLIST_GROWTH_FACTOR : ℚ := 4953959590107546 / 4503599627370496

/-- Marker `PAR_INACTIVE_OUTSIDE` ( -1.0 ): mass marker for particles removed
because they flew outside the simulation box (`src/unnamed/part_000`). -/
def PAR_INACTIVE_OUTSIDE : ℚ := -1

/-- Marker `PAR_INACTIVE_MPI` ( -2.0 ): mass marker for particles sent to other
MPI ranks (`src/unnamed/part_000`). -/
def PAR_INACTIVE_MPI : ℚ := -2

/-- Sentinel `NULL_INT` (`__INT_MAX__`): level argument meaning "no level
tracking" in `RemoveOneParticle`. -/
def NULL_INT : Int := 2147483647

/-- Index `PAR_MASS` (0) of the mass buffer inside `ParVar`. -/
def PAR_MASS : Nat := 0

/-- Bit length minus one of `n` (i.e. `floor(log2 n)`), computed by
structural recursion on an explicit fuel so that the kernel can evaluate
it; correct whenever `n < 2^fuel` (`log2F_bounds`). -/
def log2F : Nat → Nat → Nat
  | 0, _ => 0
  | fuel + 1, n => if 2 ≤ n then log2F fuel (n / 2) + 1 else 0

/-- Computation `(int)ceil( 1.1 * k )` exactly as IEEE-754 binary64
arithmetic performs it for `0 ≤ k ≤ 2^31`: the double literal `1.1` is
4953959590107546/2^52 (slightly above 11/10), the product
`4953959590107546 * k / 2^52` is rounded to nearest-even at 53 significant
bits (`m * 2^s` below, scaled by `2^52 = 4503599627370496`), and the
ceiling of the rounded value is returned.  Because `1.1 > 11/10`, this
exceeds the exact rational ceiling at many sizes (e.g. `k = 50` gives 56,
not 55). -/
def fp64CeilGrowNat (k : Nat) : Nat :=
  let a := 4953959590107546 * k
  let L := log2F 100 a + 1
  if L ≤ 53 then (a + 4503599627370495) / 4503599627370496
  else
    let s := L - 53
    let m0 := a / 2 ^ s
    let r := a % 2 ^ s
    let half := 2 ^ (s - 1)
    let m := if half < r then m0 + 1 else if r < half then m0 else m0 + m0 % 2
    (m * 2 ^ s + 4503599627370495) / 4503599627370496

/-- Resized array length `(int)ceil( PARLIST_GROWTH_FACTOR*(size+1) )`
(Particle.h:296, :377), following the C double-precision computation
(`fp64CeilGrowNat`).  Beyond the `int` range (`size + 1 > 2^31`) the C
cast to `int` is undefined behaviour and unreachable in practice; the
model falls back to the exact rational ceiling there. -/
def ceilGrow (size : Int) : Int :=
  if size + 1 ≤ 2147483648 then (fp64CeilGrowNat (size + 1).toNat : Int)
  else Int.fdiv ( 11 * (size + 1) + 9 ) 10

/-- Enum `ParInit_t` (from a header not included in the excerpt; member
names follow the comment in `Particle.h`: 1/2/3 --> call
function/restart/load from file). Only `NONE` is used by the pool core. -/
inductive ParInit_t
  | NONE
  | Function
  | Restart
  | LoadFile
deriving DecidableEq

/-- Enum `ParInterp_t`: mass/acceleration interpolation scheme (NGP, CIC, TSC). -/
inductive ParInterp_t
  | NONE
  | NGP
  | CIC
  | TSC
deriving DecidableEq

/-- Enum `ParInteg_t`: integration scheme (PAR_INTEG_EULER, PAR_INTEG_KDK). -/
inductive ParInteg_t
  | NONE
  | EULER
  | KDK
deriving DecidableEq

/-- One tag per `Aux_Error` call site reachable from the three methods. -/
inductive ParError
  | NParNegative
  | InterpNone
  | UnsupportedScheme
  | AveDensNull
  | BadReusedParID
  | WrongParID
  | UnsupportedMarker
  | PostconditionViolation
deriving DecidableEq

/-- Structure `struct Particle_t`: the particle pool.  Buffer pointers are modelled
as lists; `NPar_Lv` (a `long[NLEVEL]` array) as a list of length NLEVEL;
`ParVar`/`Passive` (arrays of `NPAR_VAR`/`NPAR_PASSIVE` buffer pointers) as
lists of buffers. -/
structure Particle_t where
  ParListSize : Int
  InactiveParListSize : Int
  NPar_Active_AllRank : Int
  NPar_AcPlusInac : Int
  NPar_Active : Int
  NPar_Inactive : Int
  NPar_Lv : List Int
  Init : ParInit_t
  Interp : ParInterp_t
  Integ : ParInteg_t
  SyncDump : Bool
  ImproveAcc : Bool
  PredictPos : Bool
  RemoveCell : ℚ
  GhostSize : Int
  ParVar : List (List ℚ)
  Passive : List (List ℚ)
  InactiveParList : List Int

/-- The alias pointer `Mass = ParVar[PAR_MASS]`. -/
def Particle_t.Mass (p : Particle_t) : List ℚ := p.ParVar.getD PAR_MASS []

/-- Allocation `malloc( n*sizeof(real) )`: a fresh buffer of `n` cells (junk cells
modelled as `0`). -/
def mallocBuf (n : Int) : List ℚ := List.replicate n.toNat 0

/-- Reallocation `realloc( l, newLen )`: keeps the first `min newLen l.length` cells and
appends fresh (junk) cells up to length `newLen`. -/
def reallocBuf {α : Type} (l : List α) (junk : α) (newLen : Nat) : List α :=
  l.take newLen ++ List.replicate (newLen - l.length) junk

/-- The `for (v=0; v<N; v++) buf[v][i] = vals[v];` write loops of
`AddOneParticle` (loop bound `N` = number of buffers; an out-of-bounds read
of `vals` would be UB in C and is modelled as junk `0`). -/
def setEach (bufs : List (List ℚ)) (vals : List ℚ) (i : Nat) : List (List ℚ) :=
  match bufs, vals with
  | [], _ => []
  | b :: bs, [] => b.set i 0 :: setEach bs [] i
  | b :: bs, x :: xs => b.set i x :: setEach bs xs i

/-- The constructor `Particle_t()`.  `NLEVEL`, `NPAR_VAR`, `NPAR_PASSIVE`
are compile-time configuration constants of the build.  The C constructor
leaves `ParListSize`, `InactiveParListSize`, `NPar_Active`,
`NPar_Inactive`, and `GhostSize` uninitialized; they are modelled as `0`
(every claim goes through `InitVar`, which overwrites them before use). -/
def Particle_t.construct (NLEVEL NPAR_VAR NPAR_PASSIVE : Nat) : Particle_t where
  ParListSize := 0
  InactiveParListSize := 0
  NPar_Active_AllRank := -1
  NPar_AcPlusInac := -1
  NPar_Active := 0
  NPar_Inactive := 0
  NPar_Lv := List.replicate NLEVEL 0
  Init := ParInit_t.NONE
  Interp := ParInterp_t.NONE
  Integ := ParInteg_t.NONE
  SyncDump := true
  ImproveAcc := true
  PredictPos := true
  RemoveCell := -(9999 / 10)
  GhostSize := 0
  ParVar := List.replicate NPAR_VAR []
  Passive := List.replicate NPAR_PASSIVE []
  InactiveParList := []

/-- Method `InitVar()`: validates `NPar_AcPlusInac` and `Interp`, initializes the
counters and sizes, derives `GhostSize`, and allocates all buffers sized
exactly to `NPar_AcPlusInac` (and the free list to
`MAX(1, ParListSize/100)`). -/
def InitVar (p : Particle_t) : Except ParError Particle_t :=
  if p.NPar_AcPlusInac < 0 then .error .NParNegative
  else if p.Interp = ParInterp_t.NONE then .error .InterpNone
  else
    let g : Int :=
      match p.Interp with
      | ParInterp_t.NGP => 0
      | ParInterp_t.CIC => 1
      | ParInterp_t.TSC => 1
      | ParInterp_t.NONE => 0   -- unreachable: NONE was rejected above
    .ok { p with
      NPar_Active := p.NPar_AcPlusInac
      NPar_Inactive := 0
      ParListSize := p.NPar_AcPlusInac
      InactiveParListSize := max 1 (p.NPar_AcPlusInac / 100)
      GhostSize := g
      ParVar := p.ParVar.map (fun _ => mallocBuf p.NPar_AcPlusInac)
      Passive := p.Passive.map (fun _ => mallocBuf p.NPar_AcPlusInac)
      InactiveParList := List.replicate (max 1 (p.NPar_AcPlusInac / 100)).toNat 0 }

/-- Growth of the attribute buffers in step 1-2 of `AddOneParticle`:
`ParListSize = (int)ceil( PARLIST_GROWTH_FACTOR*(ParListSize+1) )`
(double-precision arithmetic, `ceilGrow`) followed by `realloc` of every
primary and passive buffer. -/
def growPool (p : Particle_t) : Particle_t :=
  { p with
    ParListSize := ceilGrow p.ParListSize
    ParVar := p.ParVar.map (fun b => reallocBuf b 0 (ceilGrow p.ParListSize).toNat)
    Passive := p.Passive.map (fun b => reallocBuf b 0 (ceilGrow p.ParListSize).toNat) }

/-- Step 1 of `AddOneParticle`: determine the target particle ID, either by
popping the top of `InactiveParList` (1-1) or by growing the pool and
appending a fresh slot (1-2).  Returns the updated pool and `ParID`. -/
def addTarget (p : Particle_t) : Particle_t × Int :=
  if 0 < p.NPar_Inactive then
    ({ p with NPar_Inactive := p.NPar_Inactive - 1 },
     p.InactiveParList.getD (p.NPar_Inactive - 1).toNat 0)
  else
    let p1 := if p.ParListSize ≤ p.NPar_AcPlusInac then growPool p else p
    ({ p1 with NPar_AcPlusInac := p1.NPar_AcPlusInac + 1 }, p1.NPar_AcPlusInac)

/-- Steps 2-3 of `AddOneParticle`: write the new particle's data into slot
`ParID`, update `*AveDens` (reading `Mass[ParID]` after the write, as the
code does), and bump `NPar_Active` and `NPar_Lv[lv]`. -/
def addRecord (p : Particle_t) (NewVar NewPassive : List ℚ) (lv : Int) (ParID : Int)
    (AveDens : Option ℚ) ( _BoxVolume : ℚ) : Particle_t × Option ℚ × Int :=
  let p1 := { p with
    ParVar := setEach p.ParVar NewVar ParID.toNat
    Passive := setEach p.Passive NewPassive ParID.toNat }
  let d := AveDens.map (fun a => a + p1.Mass.getD ParID.toNat 0 * _BoxVolume)
  let p2 := { p1 with
    NPar_Active := p1.NPar_Active + 1
    NPar_Lv := p1.NPar_Lv.set lv.toNat (p1.NPar_Lv.getD lv.toNat 0 + 1) }
  (p2, d, ParID)

/-- Method `AddOneParticle( NewVar, NewPassive, lv, AveDens, _BoxVolume )` in the
checked (`DEBUG_PARTICLE`) build.  The C function returns `void`; the
internal local `ParID` (the slot assigned to the new particle) and the
updated accumulator are exposed as extra result components so that claims
can refer to them. -/
def AddOneParticle (p : Particle_t) (NewVar NewPassive : List ℚ) (lv : Int)
    (AveDens : Option ℚ) ( _BoxVolume : ℚ) :
    Except ParError (Particle_t × Option ℚ × Int) :=
  if p.NPar_AcPlusInac < 0 then .error .NParNegative
  else if AveDens = none then .error .AveDensNull
  else
    let t := addTarget p
    if 0 < p.NPar_Inactive ∧ (t.2 < 0 ∨ p.NPar_AcPlusInac ≤ t.2) then
      .error .BadReusedParID
    else .ok (addRecord t.1 NewVar NewPassive lv t.2 AveDens _BoxVolume)

/-- Growth of the free list in step 1 of `RemoveOneParticle`, using the
same double-precision size computation (`ceilGrow`). -/
def growInactive (p : Particle_t) : Particle_t :=
  { p with
    InactiveParListSize := ceilGrow p.InactiveParListSize
    InactiveParList := reallocBuf p.InactiveParList 0 (ceilGrow p.InactiveParListSize).toNat }

/-- Steps 1-3 of `RemoveOneParticle` on the pool state: grow the free list
if full, push `ParID`, tombstone `Mass[ParID] = Marker`, and update the
counters (`NPar_Lv[lv]` only when `lv != NULL_INT`). -/
def removeStep (p : Particle_t) (ParID : Int) (Marker : ℚ) (lv : Int) : Particle_t :=
  let p1 := if p.InactiveParListSize ≤ p.NPar_Inactive then growInactive p else p
  let p2 := { p1 with InactiveParList := p1.InactiveParList.set p1.NPar_Inactive.toNat ParID }
  let p3 := { p2 with ParVar := p2.ParVar.set PAR_MASS (p2.Mass.set ParID.toNat Marker) }
  let p4 := { p3 with
    NPar_Active := p3.NPar_Active - 1
    NPar_Inactive := p3.NPar_Inactive + 1 }
  if lv ≠ NULL_INT then
    { p4 with NPar_Lv := p4.NPar_Lv.set lv.toNat (p4.NPar_Lv.getD lv.toNat 0 - 1) }
  else p4

/-- The density update of `RemoveOneParticle`: `*AveDens -=
Mass[ParID]*_BoxVolume` (skipped when `AveDens == NULL`), reading the mass
before it is overwritten with the marker. -/
def removeDens (p : Particle_t) (ParID : Int) (AveDens : Option ℚ) ( _BoxVolume : ℚ) :
    Option ℚ :=
  AveDens.map (fun a => a - p.Mass.getD ParID.toNat 0 * _BoxVolume)

/-- Method `RemoveOneParticle( ParID, Marker, lv, AveDens, _BoxVolume )` in the
checked (`DEBUG_PARTICLE`) build, including the final postcondition check
`NPar_Active + NPar_Inactive == NPar_AcPlusInac`. -/
def RemoveOneParticle (p : Particle_t) (ParID : Int) (Marker : ℚ) (lv : Int)
    (AveDens : Option ℚ) ( _BoxVolume : ℚ) :
    Except ParError (Particle_t × Option ℚ) :=
  if ParID < 0 ∨ p.NPar_AcPlusInac ≤ ParID then .error .WrongParID
  else if Marker ≠ PAR_INACTIVE_OUTSIDE ∧ Marker ≠ PAR_INACTIVE_MPI then
    .error .UnsupportedMarker
  else
    let r := removeStep p ParID Marker lv
    if r.NPar_Active + r.NPar_Inactive ≠ r.NPar_AcPlusInac then
      .error .PostconditionViolation
    else .ok (r, removeDens p ParID AveDens _BoxVolume)

/-- One `AddOneParticle` or `RemoveOneParticle` call with its arguments. -/
inductive PoolOp
  | add (NewVar NewPassive : List ℚ) (lv : Int) (AveDens : Option ℚ) (invVol : ℚ)
  | remove (ParID : Int) (Marker : ℚ) (lv : Int) (AveDens : Option ℚ) (invVol : ℚ)

/-- Apply one call to the pool (the caller-owned accumulator is per-call
state and is dropped between calls). -/
def applyOp (p : Particle_t) : PoolOp → Except ParError Particle_t
  | PoolOp.add nv np lv ad bv => (AddOneParticle p nv np lv ad bv).map (fun x => x.1)
  | PoolOp.remove id mk lv ad bv => (RemoveOneParticle p id mk lv ad bv).map (fun x => x.1)

/-- Run a sequence of Add/Remove calls, stopping at the first fatal error. -/
def runOps (p : Particle_t) : List PoolOp → Except ParError Particle_t
  | [] => .ok p
  | op :: ops =>
    match applyOp p op with
    | .error e => .error e
    | .ok q => runOps q ops

/-- Well-formedness of a pool state: counter and buffer-size facts that
hold after `InitVar` and are preserved by every successful call. -/
def WF (p : Particle_t) : Prop :=
  0 ≤ p.NPar_AcPlusInac ∧
  0 ≤ p.NPar_Inactive ∧
  p.NPar_Active + p.NPar_Inactive = p.NPar_AcPlusInac ∧
  p.NPar_AcPlusInac ≤ p.ParListSize ∧
  (∀ b ∈ p.ParVar, b.length = p.ParListSize.toNat) ∧
  (∀ b ∈ p.Passive, b.length = p.ParListSize.toNat) ∧
  p.InactiveParList.length = p.InactiveParListSize.toNat ∧
  p.NPar_Inactive ≤ p.InactiveParListSize ∧
  (∀ i < p.NPar_Inactive.toNat,
    0 ≤ p.InactiveParList.getD i 0 ∧ p.InactiveParList.getD i 0 < p.NPar_AcPlusInac)

/-! ## Arithmetic and list helper lemmas -/

lemma log2F_bounds (fuel : Nat) : ∀ n : Nat, 1 ≤ n → n < 2 ^ fuel →
    2 ^ (log2F fuel n) ≤ n ∧ n < 2 ^ (log2F fuel n + 1) := by
  induction fuel with
  | zero =>
    intro n h1 h2
    rw [pow_zero] at h2
    exact absurd h2 (by omega)
  | succ f ih =>
    intro n h1 h2
    by_cases h : 2 ≤ n
    · have hpow : (2:Nat) ^ (f + 1) = 2 * 2 ^ f := by rw [pow_succ]; ring
      have hrec := ih (n / 2) (by omega) (by omega)
      simp only [log2F, if_pos h]
      have e1 : (2:Nat) ^ (log2F f (n / 2) + 1) = 2 * 2 ^ (log2F f (n / 2)) := by
        rw [pow_succ]; ring
      have e2 : (2:Nat) ^ (log2F f (n / 2) + 1 + 1) = 2 * 2 ^ (log2F f (n / 2) + 1) := by
        rw [pow_succ]; ring
      constructor
      · rw [e1]; omega
      · rw [e2]; omega
    · simp only [log2F, if_neg h]
      have hpow1 : (2:Nat) ^ (0 + 1) = 2 := by norm_num
      constructor
      · simpa using h1
      · rw [hpow1]; omega

/-- The double-precision growth result strictly exceeds its argument:
rounding to nearest at 53 bits loses less than the gap `(1.1 - 1) * k`. -/
lemma fp64CeilGrowNat_ge (k : Nat) (hk1 : 1 ≤ k) (hk : k ≤ 2147483648) :
    k + 1 ≤ fp64CeilGrowNat k := by
  simp only [fp64CeilGrowNat]
  set a := 4953959590107546 * k with ha
  have ha1 : 1 ≤ a := by omega
  have haU : a < 2 ^ 100 := by
    have h1 : a ≤ 4953959590107546 * 2147483648 := by omega
    have h2 : (4953959590107546 * 2147483648 : Nat) < 2 ^ 100 := by norm_num
    omega
  obtain ⟨hL1, hL2⟩ := log2F_bounds 100 a ha1 haU
  by_cases hc : log2F 100 a + 1 ≤ 53
  · rw [if_pos hc]
    have hlow : 4503599627370496 * k < a := by omega
    omega
  · rw [if_neg hc]
    set s := log2F 100 a + 1 - 53 with hs
    have hL' : log2F 100 a = s + 52 := by omega
    rw [hL'] at hL1
    have hsplit : (2:Nat) ^ (s + 52) = 2 ^ s * 4503599627370496 := by
      rw [pow_add]; norm_num
    rw [hsplit] at hL1
    have hak : a < 9007199254740992 * k := by omega
    have htk : 2 ^ s < 2 * k := by
      by_contra hcon
      push_neg at hcon
      have hmul : 2 * k * 4503599627370496 ≤ 2 ^ s * 4503599627370496 :=
        Nat.mul_le_mul_right _ hcon
      omega
    have hdm : a / 2 ^ s * 2 ^ s + a % 2 ^ s = a := Nat.div_add_mod' a (2 ^ s)
    have hrlt : a % 2 ^ s < 2 ^ s := Nat.mod_lt _ (by positivity)
    have key : ∀ m : Nat, a / 2 ^ s ≤ m →
        k + 1 ≤ (m * 2 ^ s + 4503599627370495) / 4503599627370496 := by
      intro m hm
      have hms : a / 2 ^ s * 2 ^ s ≤ m * 2 ^ s := Nat.mul_le_mul_right _ hm
      rw [Nat.le_div_iff_mul_le (by norm_num : 0 < (4503599627370496:Nat))]
      omega
    split_ifs with h1 h2
    · exact key _ (by omega)
    · exact key _ (le_refl _)
    · exact key _ (by omega)

lemma ceilGrow_ge (n : Int) (h : 0 ≤ n) : n + 2 ≤ ceilGrow n := by
  unfold ceilGrow
  by_cases hc : n + 1 ≤ 2147483648
  · rw [if_pos hc]
    have hge := fp64CeilGrowNat_ge (n + 1).toNat (by omega) (by omega)
    omega
  · rw [if_neg hc]
    have hdv : Int.fdiv (11 * (n + 1) + 9) 10 = (11 * (n + 1) + 9) / 10 :=
      Int.fdiv_eq_ediv _ (by norm_num)
    omega

lemma setEach_length (bufs : List (List ℚ)) (vals : List ℚ) (i : Nat) :
    (setEach bufs vals i).length = bufs.length := by
  induction bufs generalizing vals with
  | nil => simp [setEach]
  | cons b bs ih =>
    cases vals with
    | nil => simp [setEach, ih]
    | cons x xs => simp [setEach, ih]

lemma setEach_exists_src {bufs : List (List ℚ)} {vals : List ℚ} {i : Nat} :
    ∀ b' ∈ setEach bufs vals i, ∃ b ∈ bufs, b'.length = b.length := by
  induction bufs generalizing vals with
  | nil => simp [setEach]
  | cons b bs ih =>
    intro b' hb'
    cases vals with
    | nil =>
      rcases (by simpa [setEach] using hb' : b' = b.set i 0 ∨ b' ∈ setEach bs [] i) with h | h
      · exact ⟨b, by simp, by simp [h]⟩
      · obtain ⟨c, hc, hl⟩ := ih b' h
        exact ⟨c, by simp [hc], hl⟩
    | cons x xs =>
      rcases (by simpa [setEach] using hb' : b' = b.set i x ∨ b' ∈ setEach bs xs i) with h | h
      · exact ⟨b, by simp, by simp [h]⟩
      · obtain ⟨c, hc, hl⟩ := ih b' h
        exact ⟨c, by simp [hc], hl⟩

lemma setEach_getD (bufs : List (List ℚ)) (vals : List ℚ) (i : Nat) :
    ∀ v < bufs.length,
      (setEach bufs vals i).getD v [] = (bufs.getD v []).set i (vals.getD v 0) := by
  induction bufs generalizing vals with
  | nil => intro v hv; simp at hv
  | cons b bs ih =>
    intro v hv
    cases vals with
    | nil =>
      cases v with
      | zero => simp [setEach]
      | succ w => simpa [setEach] using ih [] w (by simpa using hv)
    | cons x xs =>
      cases v with
      | zero => simp [setEach]
      | succ w => simpa [setEach] using ih xs w (by simpa using hv)

lemma reallocBuf_length {α : Type} (l : List α) (j : α) (n : Nat) :
    (reallocBuf l j n).length = n := by
  simp [reallocBuf]
  omega

lemma reallocBuf_eq_append {α : Type} (l : List α) (j : α) (n : Nat) (h : l.length ≤ n) :
    reallocBuf l j n = l ++ List.replicate (n - l.length) j := by
  unfold reallocBuf
  rw [List.take_of_length_le h]

lemma reallocBuf_getD_lt {α : Type} (l : List α) (j d : α) (n i : Nat)
    (h1 : i < l.length) (h2 : i < n) : (reallocBuf l j n).getD i d = l.getD i d := by
  unfold reallocBuf
  rw [List.getD_eq_getElem?_getD, List.getElem?_append,
    if_pos (by simp [List.length_take]; omega), List.getElem?_take, if_pos h2,
    ← List.getD_eq_getElem?_getD]

lemma getD_set_self {α : Type} (l : List α) (i : Nat) (x d : α) (h : i < l.length) :
    (l.set i x).getD i d = x := by
  rw [List.getD_eq_getElem?_getD, List.getElem?_set_self (by omega)]
  rfl

lemma getD_set_ne {α : Type} (l : List α) {i j : Nat} (hij : i ≠ j) (x d : α) :
    (l.set i x).getD j d = l.getD j d := by
  rw [List.getD_eq_getElem?_getD, List.getElem?_set_ne hij, ← List.getD_eq_getElem?_getD]

lemma sum_set_getD (l : List Int) (i : Nat) (x : Int) (h : i < l.length) :
    (l.set i x).sum = l.sum - l.getD i 0 + x := by
  induction l generalizing i with
  | nil => simp at h
  | cons a as ih =>
    cases i with
    | zero => simp [List.sum_cons]; ring
    | succ w =>
      simp only [List.set_cons_succ, List.sum_cons, List.getD_cons_succ]
      rw [ih w (by simpa using h)]
      ring

/-! ## Characterization of the three methods -/

/-- Equation: `removeStep` written as a single record update. -/
lemma removeStep_eq (p : Particle_t) (id : Int) (mk : ℚ) (lv : Int) :
    removeStep p id mk lv = { p with
      InactiveParListSize :=
        if p.InactiveParListSize ≤ p.NPar_Inactive then ceilGrow p.InactiveParListSize
        else p.InactiveParListSize
      InactiveParList :=
        (if p.InactiveParListSize ≤ p.NPar_Inactive then
          reallocBuf p.InactiveParList 0 (ceilGrow p.InactiveParListSize).toNat
         else p.InactiveParList).set p.NPar_Inactive.toNat id
      ParVar := p.ParVar.set PAR_MASS (p.Mass.set id.toNat mk)
      NPar_Active := p.NPar_Active - 1
      NPar_Inactive := p.NPar_Inactive + 1
      NPar_Lv :=
        if lv ≠ NULL_INT then p.NPar_Lv.set lv.toNat (p.NPar_Lv.getD lv.toNat 0 - 1)
        else p.NPar_Lv } := by
  simp only [removeStep, growInactive, Particle_t.Mass]
  split_ifs <;> rfl

lemma addTarget_pos {p : Particle_t} (h : 0 < p.NPar_Inactive) :
    addTarget p = ({ p with NPar_Inactive := p.NPar_Inactive - 1 },
      p.InactiveParList.getD (p.NPar_Inactive - 1).toNat 0) := by
  unfold addTarget
  rw [if_pos h]

lemma addTarget_full {p : Particle_t} (h0 : ¬ 0 < p.NPar_Inactive)
    (h1 : p.ParListSize ≤ p.NPar_AcPlusInac) :
    addTarget p =
      ({ growPool p with NPar_AcPlusInac := p.NPar_AcPlusInac + 1 }, p.NPar_AcPlusInac) := by
  simp only [addTarget, growPool]
  rw [if_neg h0, if_pos h1]

lemma addTarget_room {p : Particle_t} (h0 : ¬ 0 < p.NPar_Inactive)
    (h1 : ¬ p.ParListSize ≤ p.NPar_AcPlusInac) :
    addTarget p = ({ p with NPar_AcPlusInac := p.NPar_AcPlusInac + 1 }, p.NPar_AcPlusInac) := by
  simp only [addTarget]
  rw [if_neg h0, if_neg h1]

lemma addRecord_fst (p : Particle_t) (nv np : List ℚ) (lv id : Int) (ad : Option ℚ) (bv : ℚ) :
    (addRecord p nv np lv id ad bv).1 = { p with
      ParVar := setEach p.ParVar nv id.toNat
      Passive := setEach p.Passive np id.toNat
      NPar_Active := p.NPar_Active + 1
      NPar_Lv := p.NPar_Lv.set lv.toNat (p.NPar_Lv.getD lv.toNat 0 + 1) } := rfl

lemma addRecord_dens (p : Particle_t) (nv np : List ℚ) (lv id : Int) (ad : Option ℚ) (bv : ℚ) :
    (addRecord p nv np lv id ad bv).2.1 =
      ad.map (fun a =>
        a + ((setEach p.ParVar nv id.toNat).getD PAR_MASS []).getD id.toNat 0 * bv) := rfl

lemma addRecord_pid (p : Particle_t) (nv np : List ℚ) (lv id : Int) (ad : Option ℚ) (bv : ℚ) :
    (addRecord p nv np lv id ad bv).2.2 = id := rfl

/-- Successful-`RemoveOneParticle` equation: with a valid ID, a reserved
marker, and the accounting invariant, the call returns the updated pool. -/
lemma RemoveOneParticle_ok {p : Particle_t} (ParID : Int) (Marker : ℚ) (lv : Int)
    (AveDens : Option ℚ) (bv : ℚ)
    (h1 : 0 ≤ ParID) (h2 : ParID < p.NPar_AcPlusInac)
    (h3 : Marker = PAR_INACTIVE_OUTSIDE ∨ Marker = PAR_INACTIVE_MPI)
    (h4 : p.NPar_Active + p.NPar_Inactive = p.NPar_AcPlusInac) :
    RemoveOneParticle p ParID Marker lv AveDens bv =
      .ok (removeStep p ParID Marker lv, removeDens p ParID AveDens bv) := by
  simp only [RemoveOneParticle]
  rw [if_neg (by omega), if_neg (by rcases h3 with h | h <;> simp [h])]
  rw [if_neg (by rw [removeStep_eq]; simp; omega)]

/-- Inversion for a successful `RemoveOneParticle`. -/
lemma RemoveOneParticle_ok_inv {p : Particle_t} {ParID : Int} {Marker : ℚ} {lv : Int}
    {AveDens : Option ℚ} {bv : ℚ} {r : Particle_t} {d : Option ℚ}
    (h : RemoveOneParticle p ParID Marker lv AveDens bv = .ok (r, d)) :
    0 ≤ ParID ∧ ParID < p.NPar_AcPlusInac ∧
    (Marker = PAR_INACTIVE_OUTSIDE ∨ Marker = PAR_INACTIVE_MPI) ∧
    r = removeStep p ParID Marker lv ∧ d = removeDens p ParID AveDens bv := by
  simp only [RemoveOneParticle] at h
  split_ifs at h with h1 h2 h3
  · push_neg at h1
    have hp := Except.ok.inj h
    have hm : Marker = PAR_INACTIVE_OUTSIDE ∨ Marker = PAR_INACTIVE_MPI := by
      rcases not_and_or.mp h2 with h2' | h2'
      · exact Or.inl (not_not.mp h2')
      · exact Or.inr (not_not.mp h2')
    exact ⟨by omega, by omega, hm, congrArg Prod.fst hp.symm, congrArg Prod.snd hp.symm⟩

/-- Successful-`AddOneParticle` equation. -/
lemma AddOneParticle_ok_of {p : Particle_t} (nv np : List ℚ) (lv : Int) (a bv : ℚ)
    (hA : 0 ≤ p.NPar_AcPlusInac)
    (hpop : 0 < p.NPar_Inactive →
      0 ≤ (addTarget p).2 ∧ (addTarget p).2 < p.NPar_AcPlusInac) :
    AddOneParticle p nv np lv (some a) bv =
      .ok (addRecord (addTarget p).1 nv np lv (addTarget p).2 (some a) bv) := by
  simp only [AddOneParticle]
  rw [if_neg (by omega), if_neg (by simp)]
  rw [if_neg (by
    rintro ⟨hp, hbad⟩
    rcases hpop hp with ⟨hx, hy⟩
    omega)]

/-- Inversion for a successful `AddOneParticle`. -/
lemma AddOneParticle_ok_inv {p : Particle_t} {nv np : List ℚ} {lv : Int}
    {ad : Option ℚ} {bv : ℚ} {r : Particle_t} {d : Option ℚ} {pid : Int}
    (h : AddOneParticle p nv np lv ad bv = .ok (r, d, pid)) :
    0 ≤ p.NPar_AcPlusInac ∧ ad ≠ none ∧
    (r, d, pid) = addRecord (addTarget p).1 nv np lv (addTarget p).2 ad bv ∧
    (0 < p.NPar_Inactive →
      0 ≤ (addTarget p).2 ∧ (addTarget p).2 < p.NPar_AcPlusInac) := by
  simp only [AddOneParticle] at h
  split_ifs at h with h1 h2 h3
  · refine ⟨by omega, h2, ?_, ?_⟩
    · exact (Except.ok.inj h).symm
    · intro hp
      rcases not_and_or.mp h3 with h3' | h3'
      · exact absurd hp h3'
      · push_neg at h3'
        omega

/-! ## Well-formedness preservation -/

lemma Mass_mem {p : Particle_t} (h : p.ParVar ≠ []) : p.Mass ∈ p.ParVar := by
  unfold Particle_t.Mass PAR_MASS
  have hl : 0 < p.ParVar.length := List.length_pos.mpr h
  rw [List.getD_eq_getElem _ _ hl]
  exact List.getElem_mem hl

lemma WF_initVar {p q : Particle_t} (h : InitVar p = .ok q) : WF q := by
  simp only [InitVar] at h
  split_ifs at h with h1 h2
  have hq := Except.ok.inj h
  subst hq
  unfold WF
  refine ⟨by simpa using by omega, by simp, by simp, by simp, ?_, ?_, by simp, ?_, ?_⟩
  · intro b hb
    simp only [List.mem_map] at hb
    obtain ⟨c, -, rfl⟩ := hb
    simp [mallocBuf]
  · intro b hb
    simp only [List.mem_map] at hb
    obtain ⟨c, -, rfl⟩ := hb
    simp [mallocBuf]
  · simp
  · intro i hi
    simp at hi

lemma addTarget_fst_frame (p : Particle_t) :
    (addTarget p).1.NPar_Lv = p.NPar_Lv ∧
    (addTarget p).1.NPar_Active = p.NPar_Active ∧
    (addTarget p).1.InactiveParList = p.InactiveParList ∧
    (addTarget p).1.InactiveParListSize = p.InactiveParListSize := by
  simp only [addTarget, growPool]
  split_ifs <;> simp

lemma WF_add {p : Particle_t} {nv np : List ℚ} {lv : Int} {ad : Option ℚ} {bv : ℚ}
    {r : Particle_t} {d : Option ℚ} {pid : Int} (hWF : WF p)
    (h : AddOneParticle p nv np lv ad bv = .ok (r, d, pid)) : WF r := by
  obtain ⟨hAc, hIn, hSum, hCap, hVar, hPas, hILL, hICap, hIds⟩ := hWF
  obtain ⟨-, -, heq, hpop⟩ := AddOneParticle_ok_inv h
  have hr : r = (addRecord (addTarget p).1 nv np lv (addTarget p).2 ad bv).1 := by
    rw [← heq]
  by_cases hI : 0 < p.NPar_Inactive
  · rw [addTarget_pos hI, addRecord_fst] at hr
    subst hr
    unfold WF
    simp only
    refine ⟨hAc, by omega, by omega, hCap, ?_, ?_, hILL, by omega, ?_⟩
    · intro b hb
      obtain ⟨c, hc, hlen⟩ := setEach_exists_src b hb
      rw [hlen]
      exact hVar c hc
    · intro b hb
      obtain ⟨c, hc, hlen⟩ := setEach_exists_src b hb
      rw [hlen]
      exact hPas c hc
    · intro i hi
      exact hIds i (by omega)
  · by_cases hG : p.ParListSize ≤ p.NPar_AcPlusInac
    · rw [addTarget_full hI hG, addRecord_fst] at hr
      subst hr
      have hce := ceilGrow_ge p.ParListSize (by omega)
      unfold WF growPool
      simp only
      refine ⟨by omega, hIn, by omega, by omega, ?_, ?_, hILL, hICap, ?_⟩
      · intro b hb
        obtain ⟨c, hc, hlen⟩ := setEach_exists_src b hb
        simp only [List.mem_map] at hc
        obtain ⟨e, -, rfl⟩ := hc
        rw [hlen, reallocBuf_length]
      · intro b hb
        obtain ⟨c, hc, hlen⟩ := setEach_exists_src b hb
        simp only [List.mem_map] at hc
        obtain ⟨e, -, rfl⟩ := hc
        rw [hlen, reallocBuf_length]
      · intro i hi
        have := hIds i (by omega)
        omega
    · rw [addTarget_room hI hG, addRecord_fst] at hr
      subst hr
      unfold WF
      simp only
      refine ⟨by omega, hIn, by omega, by omega, ?_, ?_, hILL, hICap, ?_⟩
      · intro b hb
        obtain ⟨c, hc, hlen⟩ := setEach_exists_src b hb
        rw [hlen]
        exact hVar c hc
      · intro b hb
        obtain ⟨c, hc, hlen⟩ := setEach_exists_src b hb
        rw [hlen]
        exact hPas c hc
      · intro i hi
        have := hIds i (by omega)
        omega

lemma WF_remove {p : Particle_t} {ParID : Int} {mk : ℚ} {lv : Int} {ad : Option ℚ}
    {bv : ℚ} {r : Particle_t} {d : Option ℚ} (hWF : WF p)
    (h : RemoveOneParticle p ParID mk lv ad bv = .ok (r, d)) : WF r := by
  obtain ⟨hAc, hIn, hSum, hCap, hVar, hPas, hILL, hICap, hIds⟩ := hWF
  obtain ⟨h1, h2, -, hr, -⟩ := RemoveOneParticle_ok_inv h
  subst hr
  rw [removeStep_eq]
  have hmass : ∀ b ∈ p.ParVar.set PAR_MASS (p.Mass.set ParID.toNat mk),
      b.length = p.ParListSize.toNat := by
    intro b hb
    rcases List.mem_or_eq_of_mem_set hb with hc | hc
    · exact hVar b hc
    · rcases List.eq_nil_or_concat p.ParVar with hnil | -
      · rw [hnil] at hb
        simp at hb
      · subst hc
        rw [List.length_set]
        exact hVar p.Mass (Mass_mem (by
          intro hnil
          rw [hnil] at hb
          simp at hb))
  by_cases hG : p.InactiveParListSize ≤ p.NPar_Inactive
  · have hce := ceilGrow_ge p.InactiveParListSize (by omega)
    unfold WF
    simp only [if_pos hG]
    refine ⟨hAc, by omega, by omega, hCap, hmass, hPas, ?_, by omega, ?_⟩
    · rw [List.length_set, reallocBuf_length]
    · intro i hi
      rcases Nat.lt_or_ge i p.NPar_Inactive.toNat with hlt | hge
      · rw [getD_set_ne _ (by omega)]
        rw [reallocBuf_getD_lt _ _ _ _ _ (by omega) (by omega)]
        exact hIds i hlt
      · have hieq : i = p.NPar_Inactive.toNat := by omega
        subst hieq
        rw [getD_set_self _ _ _ _ (by rw [reallocBuf_length]; omega)]
        omega
  · unfold WF
    simp only [if_neg hG]
    refine ⟨hAc, by omega, by omega, hCap, hmass, hPas, ?_, by omega, ?_⟩
    · rw [List.length_set]
      exact hILL
    · intro i hi
      rcases Nat.lt_or_ge i p.NPar_Inactive.toNat with hlt | hge
      · rw [getD_set_ne _ (by omega)]
        exact hIds i hlt
      · have hieq : i = p.NPar_Inactive.toNat := by omega
        subst hieq
        rw [getD_set_self _ _ _ _ (by omega)]
        omega

lemma WF_applyOp {p q : Particle_t} {op : PoolOp} (hWF : WF p)
    (h : applyOp p op = .ok q) : WF q := by
  cases op with
  | add nv np lv ad bv =>
    simp only [applyOp] at h
    cases he : AddOneParticle p nv np lv ad bv with
    | error e => rw [he] at h; simp [Except.map] at h
    | ok t =>
      obtain ⟨r, d, pid⟩ := t
      rw [he] at h
      simp only [Except.map, Except.ok.injEq] at h
      subst h
      exact WF_add hWF he
  | remove id mk lv ad bv =>
    simp only [applyOp] at h
    cases he : RemoveOneParticle p id mk lv ad bv with
    | error e => rw [he] at h; simp [Except.map] at h
    | ok t =>
      obtain ⟨r, d⟩ := t
      rw [he] at h
      simp only [Except.map, Except.ok.injEq] at h
      subst h
      exact WF_remove hWF he

lemma WF_runOps {p q : Particle_t} {ops : List PoolOp} (hWF : WF p)
    (h : runOps p ops = .ok q) : WF q := by
  induction ops generalizing p with
  | nil =>
    simp only [runOps] at h
    exact Except.ok.inj h ▸ hWF
  | cons op ops ih =>
    simp only [runOps] at h
    cases he : applyOp p op with
    | error e => rw [he] at h; exact absurd h (by simp)
    | ok q1 =>
      rw [he] at h
      exact ih (WF_applyOp hWF he) h

/-! ## Level-count bookkeeping -/

/-- The level argument of a call is in range for `NPar_Lv` (length `n`) and,
for removals, is not the `NULL_INT` sentinel. -/
def opLevelOK (n : Nat) : PoolOp → Prop
  | PoolOp.add _ _ lv _ _ => 0 ≤ lv ∧ lv.toNat < n
  | PoolOp.remove _ _ lv _ _ => 0 ≤ lv ∧ lv.toNat < n ∧ lv ≠ NULL_INT

instance (n : Nat) (op : PoolOp) : Decidable (opLevelOK n op) := by
  cases op <;> simp only [opLevelOK] <;> infer_instance

lemma lvsum_applyOp {p q : Particle_t} {op : PoolOp} {n : Nat}
    (hlen : p.NPar_Lv.length = n) (hok : opLevelOK n op)
    (hsum : p.NPar_Lv.sum = p.NPar_Active) (h : applyOp p op = .ok q) :
    q.NPar_Lv.length = n ∧ q.NPar_Lv.sum = q.NPar_Active := by
  cases op with
  | add nv np lv ad bv =>
    obtain ⟨hlv0, hlvn⟩ := hok
    simp only [applyOp] at h
    cases he : AddOneParticle p nv np lv ad bv with
    | error e => rw [he] at h; simp [Except.map] at h
    | ok t =>
      obtain ⟨r, d, pid⟩ := t
      rw [he] at h
      simp only [Except.map, Except.ok.injEq] at h
      subst h
      obtain ⟨-, -, heq, -⟩ := AddOneParticle_ok_inv he
      have hr : r = (addRecord (addTarget p).1 nv np lv (addTarget p).2 ad bv).1 := by
        rw [← heq]
      obtain ⟨hLv, hAct, -, -⟩ := addTarget_fst_frame p
      rw [addRecord_fst] at hr
      subst hr
      simp only [hLv, hAct]
      constructor
      · rw [List.length_set, hlen]
      · rw [sum_set_getD _ _ _ (by omega)]
        omega
  | remove id mk lv ad bv =>
    obtain ⟨hlv0, hlvn, hlvnull⟩ := hok
    simp only [applyOp] at h
    cases he : RemoveOneParticle p id mk lv ad bv with
    | error e => rw [he] at h; simp [Except.map] at h
    | ok t =>
      obtain ⟨r, d⟩ := t
      rw [he] at h
      simp only [Except.map, Except.ok.injEq] at h
      subst h
      obtain ⟨-, -, -, hr, -⟩ := RemoveOneParticle_ok_inv he
      subst hr
      rw [removeStep_eq]
      simp only [if_pos hlvnull]
      constructor
      · rw [List.length_set, hlen]
      · rw [sum_set_getD _ _ _ (by omega)]
        omega

lemma lvsum_runOps {p q : Particle_t} {ops : List PoolOp} {n : Nat}
    (hlen : p.NPar_Lv.length = n) (hops : ∀ op ∈ ops, opLevelOK n op)
    (hsum : p.NPar_Lv.sum = p.NPar_Active) (h : runOps p ops = .ok q) :
    q.NPar_Lv.sum = q.NPar_Active := by
  induction ops generalizing p with
  | nil =>
    simp only [runOps] at h
    exact Except.ok.inj h ▸ hsum
  | cons op ops ih =>
    simp only [runOps] at h
    cases he : applyOp p op with
    | error e => rw [he] at h; exact absurd h (by simp)
    | ok q1 =>
      rw [he] at h
      obtain ⟨hlen1, hsum1⟩ :=
        lvsum_applyOp hlen (hops op (by simp)) hsum he
      exact ih hlen1 (fun o ho => hops o (List.mem_cons_of_mem _ ho)) hsum1 h

/-- Fields of the state established by a successful `InitVar`. -/
lemma InitVar_fields {p q : Particle_t} (h : InitVar p = .ok q) :
    q.NPar_Active = p.NPar_AcPlusInac ∧ q.NPar_Inactive = 0 ∧
    q.ParListSize = p.NPar_AcPlusInac ∧ q.NPar_AcPlusInac = p.NPar_AcPlusInac ∧
    q.NPar_Lv = p.NPar_Lv ∧
    (∀ b ∈ q.ParVar, b.length = p.NPar_AcPlusInac.toNat) ∧
    (∀ b ∈ q.Passive, b.length = p.NPar_AcPlusInac.toNat) ∧
    0 ≤ p.NPar_AcPlusInac ∧
    (p.Interp = ParInterp_t.NGP → q.GhostSize = 0) ∧
    (p.Interp = ParInterp_t.CIC → q.GhostSize = 1) ∧
    (p.Interp = ParInterp_t.TSC → q.GhostSize = 1) := by
  simp only [InitVar] at h
  split_ifs at h with h1 h2
  have hq := Except.ok.inj h
  subst hq
  refine ⟨by simp, by simp, by simp, by simp, by simp, ?_, ?_, by omega, ?_, ?_, ?_⟩
  · intro b hb
    simp only [List.mem_map] at hb
    obtain ⟨c, -, rfl⟩ := hb
    simp [mallocBuf]
  · intro b hb
    simp only [List.mem_map] at hb
    obtain ⟨c, -, rfl⟩ := hb
    simp [mallocBuf]
  · intro hi
    simp [hi]
  · intro hi
    simp [hi]
  · intro hi
    simp [hi]

/-! ## Concrete example states (used by witnesses and counterexamples) -/

/-- A freshly constructed pool (NLEVEL=10, NPAR_VAR=8, NPAR_PASSIVE=0, the
build without `STORE_PAR_ACC`) with `NPar_AcPlusInac` and `Interp` set as
required before `InitVar`. -/
def exP : Particle_t :=
  { Particle_t.construct 10 8 0 with NPar_AcPlusInac := 0, Interp := ParInterp_t.NGP }

/-- The pool after `InitVar`. -/
def exQ : Particle_t := (InitVar exP).toOption.getD exP

/-- Primary attributes of a sample particle (mass 5, at the origin). -/
def exNV : List ℚ := [5, 0, 0, 0, 0, 0, 0, 0]

/-! ## C1 -/

/-- C1: after every Add/Remove call on an initialized pool,
`NPar_Active + NPar_Inactive == NPar_AcPlusInac`; this holds for every
sequence of Add/Remove calls starting from the state established by
`InitVar`, including removals whose level argument is `NULL_INT`. -/
theorem c1_account_invariant (p q r : Particle_t) (ops : List PoolOp)
    (hinit : InitVar p = .ok q) (hrun : runOps q ops = .ok r) :
    r.NPar_Active + r.NPar_Inactive = r.NPar_AcPlusInac :=
  (WF_runOps (WF_initVar hinit) hrun).2.2.1

def c1ops : List PoolOp :=
  [PoolOp.add exNV [] 0 (some 0) 1, PoolOp.add exNV [] 1 (some 0) 1,
   PoolOp.remove 0 (-1) NULL_INT none 1, PoolOp.add exNV [] 2 (some 0) 1,
   PoolOp.remove 1 (-2) 1 none 1]

def c1r : Particle_t := (runOps exQ c1ops).toOption.getD exP

theorem c1_account_invariant_witness :
    c1r.NPar_Active + c1r.NPar_Inactive = c1r.NPar_AcPlusInac :=
  c1_account_invariant exP exQ c1r c1ops rfl rfl

/-! ## C2 -/

def c2ops : List PoolOp :=
  [PoolOp.add exNV [] 0 (some 0) 1, PoolOp.remove 0 (-1) NULL_INT none 1]

def c2r : Particle_t := (runOps exQ c2ops).toOption.getD exP

/-- C2 counterexample: starting from `InitVar` (`NPar_AcPlusInac = 0`), one
`AddOneParticle` at level 0 followed by one `RemoveOneParticle` with
`lv = NULL_INT` leaves `sum NPar_Lv = 1` but `NPar_Active = 0`: the claimed
invariant `sum NPar_Lv == NPar_Active` does not survive `NULL_INT`
removals. -/
theorem c2_counterexample :
    InitVar exP = .ok exQ ∧ runOps exQ c2ops = .ok c2r ∧
    c2r.NPar_Lv.sum = 1 ∧ c2r.NPar_Active = 0 ∧
    ¬ c2r.NPar_Lv.sum = c2r.NPar_Active :=
  ⟨rfl, rfl, by decide, by decide, by decide⟩

/-- C2 (amended): the invariant `sum NPar_Lv == NPar_Active` holds after
every sequence of Add/Remove calls starting from `InitVar`, provided the
pre-`InitVar` state already satisfies `sum NPar_Lv == NPar_AcPlusInac`
(e.g. the constructor state with `NPar_AcPlusInac == 0`) and every call
passes an in-range level, with no Remove using the `NULL_INT` sentinel. -/
theorem c2_level_sum (p q r : Particle_t) (ops : List PoolOp) (n : Nat)
    (hinit : InitVar p = .ok q)
    (hlen : p.NPar_Lv.length = n)
    (hbase : p.NPar_Lv.sum = p.NPar_AcPlusInac)
    (hops : ∀ op ∈ ops, opLevelOK n op)
    (hrun : runOps q ops = .ok r) :
    r.NPar_Lv.sum = r.NPar_Active := by
  obtain ⟨hAct, -, -, -, hLv, -⟩ := InitVar_fields hinit
  exact lvsum_runOps (by rw [hLv, hlen]) hops (by rw [hLv, hbase, hAct]) hrun

def c2wops : List PoolOp :=
  [PoolOp.add exNV [] 0 (some 0) 1, PoolOp.add exNV [] 3 (some 0) 1,
   PoolOp.remove 0 (-1) 0 none 1]

def c2wr : Particle_t := (runOps exQ c2wops).toOption.getD exP

theorem c2_level_sum_witness : c2wr.NPar_Lv.sum = c2wr.NPar_Active :=
  c2_level_sum exP exQ c2wr c2wops 10 rfl (by decide) (by decide) (by decide) rfl

/-! ## C3 -/

lemma WF_pop_valid {p : Particle_t} (hWF : WF p) (hI : 0 < p.NPar_Inactive) :
    0 ≤ (addTarget p).2 ∧ (addTarget p).2 < p.NPar_AcPlusInac := by
  obtain ⟨-, -, -, -, -, -, -, -, hIds⟩ := hWF
  rw [addTarget_pos hI]
  exact hIds (p.NPar_Inactive - 1).toNat (by omega)

/-- Under well-formedness, `AddOneParticle` with a supplied accumulator
always succeeds. -/
lemma AddOneParticle_WF_ok {p : Particle_t} (nv np : List ℚ) (lv : Int) (a bv : ℚ)
    (hWF : WF p) :
    AddOneParticle p nv np lv (some a) bv =
      .ok (addRecord (addTarget p).1 nv np lv (addTarget p).2 (some a) bv) :=
  AddOneParticle_ok_of nv np lv a bv hWF.1 (fun hI => WF_pop_valid hWF hI)

lemma setEach_mass_read (bufs : List (List ℚ)) (nv : List ℚ) (i : Nat)
    (h0 : 0 < bufs.length) (hi : i < (bufs.getD PAR_MASS []).length) :
    ((setEach bufs nv i).getD PAR_MASS []).getD i 0 = nv.getD PAR_MASS 0 := by
  have h0' : PAR_MASS < bufs.length := by unfold PAR_MASS; omega
  rw [setEach_getD bufs nv i PAR_MASS h0', getD_set_self _ _ _ _ hi]

lemma addTarget_mass_bound {p : Particle_t} (hWF : WF p) (hpv : p.ParVar ≠ []) :
    0 < (addTarget p).1.ParVar.length ∧
    ((addTarget p).2).toNat < ((addTarget p).1.ParVar.getD PAR_MASS []).length := by
  obtain ⟨hAc, hIn, hSum, hCap, hVar, hPas, hILL, hICap, hIds⟩ := hWF
  have hlen0 : 0 < p.ParVar.length := List.length_pos.mpr hpv
  have hml : p.Mass.length = p.ParListSize.toNat := hVar _ (Mass_mem hpv)
  by_cases hI : 0 < p.NPar_Inactive
  · rw [addTarget_pos hI]
    have hb := hIds (p.NPar_Inactive - 1).toNat (by omega)
    refine ⟨hlen0, ?_⟩
    show _ < p.Mass.length
    omega
  · by_cases hG : p.ParListSize ≤ p.NPar_AcPlusInac
    · rw [addTarget_full hI hG]
      simp only [growPool]
      have hce := ceilGrow_ge p.ParListSize (by omega)
      constructor
      · simpa using hlen0
      · have hg : (p.ParVar.map (fun b => reallocBuf b 0 (ceilGrow p.ParListSize).toNat)).getD
            PAR_MASS [] = reallocBuf p.Mass 0 (ceilGrow p.ParListSize).toNat := by
          unfold Particle_t.Mass
          have h0' : PAR_MASS < p.ParVar.length := by unfold PAR_MASS; omega
          rw [List.getD_eq_getElem _ _ (by simpa using h0'), List.getElem_map,
            List.getD_eq_getElem _ _ h0']
        rw [hg, reallocBuf_length]
        omega
    · rw [addTarget_room hI hG]
      refine ⟨hlen0, ?_⟩
      show _ < p.Mass.length
      omega

/-- The accumulator value produced by a (well-formed) `AddOneParticle`:
the new particle's mass `NewVar[PAR_MASS]` times `_BoxVolume` is added. -/
lemma addRecord_dens_eq {p : Particle_t} (nv np : List ℚ) (lv : Int) (a bv : ℚ)
    (hWF : WF p) (hpv : p.ParVar ≠ []) :
    (addRecord (addTarget p).1 nv np lv (addTarget p).2 (some a) bv).2.1 =
      some (a + nv.getD PAR_MASS 0 * bv) := by
  obtain ⟨h0, hi⟩ := addTarget_mass_bound hWF hpv
  rw [addRecord_dens]
  simp only [Option.map_some']
  rw [setEach_mass_read _ _ _ h0 hi]

/-- C3 counterexample: contrary to the claim, `AddOneParticle` called
without a density accumulator does not "skip the update and complete
normally": the checked build fails fatally on its `AveDens == NULL` check
(and the update `*AveDens += Mass[ParID]*_BoxVolume` at Particle.h:325 is
unconditional). -/
theorem c3_counterexample :
    AddOneParticle exQ exNV [] 0 none 1 = .error .AveDensNull := rfl

/-- C3 (amended): only `RemoveOneParticle` treats `AveDens == NULL` as
"skip the density update and complete normally"; `AddOneParticle` requires
the accumulator (fatal `AveDensNull` in checked builds).  When the
accumulator is supplied, Remove subtracts `Mass[ParID] * _BoxVolume` before
overwriting the mass, and Add adds `NewVar[PAR_MASS] * _BoxVolume`. -/
theorem c3_density_accumulator (p : Particle_t) (nv np : List ℚ) (lv lv2 : Int)
    (ParID : Int) (Marker : ℚ) (a a2 bv : ℚ)
    (hWF : WF p) (hpv : p.ParVar ≠ [])
    (hid : 0 ≤ ParID) (hid2 : ParID < p.NPar_AcPlusInac)
    (hmk : Marker = PAR_INACTIVE_OUTSIDE ∨ Marker = PAR_INACTIVE_MPI) :
    RemoveOneParticle p ParID Marker lv2 none bv =
      .ok (removeStep p ParID Marker lv2, none) ∧
    RemoveOneParticle p ParID Marker lv2 (some a2) bv =
      .ok (removeStep p ParID Marker lv2,
           some (a2 - p.Mass.getD ParID.toNat 0 * bv)) ∧
    AddOneParticle p nv np lv none bv = .error .AveDensNull ∧
    (AddOneParticle p nv np lv (some a) bv).map (fun t => t.2.1) =
      .ok (some (a + nv.getD PAR_MASS 0 * bv)) := by
  have hsum := hWF.2.2.1
  refine ⟨?_, ?_, ?_, ?_⟩
  · rw [RemoveOneParticle_ok ParID Marker lv2 none bv hid hid2 hmk hsum]
    rfl
  · rw [RemoveOneParticle_ok ParID Marker lv2 (some a2) bv hid hid2 hmk hsum]
    rfl
  · simp only [AddOneParticle]
    rw [if_neg (by have := hWF.1; omega)]
    simp
  · rw [AddOneParticle_WF_ok nv np lv a bv hWF]
    simp only [Except.map]
    rw [addRecord_dens_eq nv np lv a bv hWF hpv]

theorem c3_density_accumulator_witness :
    (RemoveOneParticle c1r 0 PAR_INACTIVE_OUTSIDE 0 none (1/2) =
      .ok (removeStep c1r 0 PAR_INACTIVE_OUTSIDE 0, none) ∧
    RemoveOneParticle c1r 0 PAR_INACTIVE_OUTSIDE 0 (some 7) (1/2) =
      .ok (removeStep c1r 0 PAR_INACTIVE_OUTSIDE 0,
           some (7 - c1r.Mass.getD (0 : Int).toNat 0 * (1/2))) ∧
    AddOneParticle c1r exNV [] 1 none (1/2) = .error .AveDensNull ∧
    (AddOneParticle c1r exNV [] 1 (some 3) (1/2)).map (fun t => t.2.1) =
      .ok (some (3 + exNV.getD PAR_MASS 0 * (1/2)))) :=
  c3_density_accumulator c1r exNV [] 1 0 0 PAR_INACTIVE_OUTSIDE 3 7 (1/2)
    (by unfold WF; decide) (by decide) (by decide) (by decide) (Or.inl rfl)

/-! ## C4 -/

lemma removeStep_fields (p : Particle_t) (ParID : Int) (mk : ℚ) (lv : Int) :
    (removeStep p ParID mk lv).NPar_Active = p.NPar_Active - 1 ∧
    (removeStep p ParID mk lv).NPar_Inactive = p.NPar_Inactive + 1 ∧
    (removeStep p ParID mk lv).NPar_AcPlusInac = p.NPar_AcPlusInac ∧
    (removeStep p ParID mk lv).ParListSize = p.ParListSize ∧
    (removeStep p ParID mk lv).Passive = p.Passive ∧
    (removeStep p ParID mk lv).ParVar = p.ParVar.set PAR_MASS (p.Mass.set ParID.toNat mk) := by
  rw [removeStep_eq]
  simp

/-- The ID pushed by `removeStep` sits on top of the free-list stack. -/
lemma removeStep_top {p : Particle_t} (ParID : Int) (mk : ℚ) (lv : Int) (hWF : WF p) :
    (removeStep p ParID mk lv).InactiveParList.getD p.NPar_Inactive.toNat 0 = ParID := by
  obtain ⟨hAc, hIn, hSum, hCap, hVar, hPas, hILL, hICap, hIds⟩ := hWF
  rw [removeStep_eq]
  simp only
  by_cases hG : p.InactiveParListSize ≤ p.NPar_Inactive
  · have hce := ceilGrow_ge p.InactiveParListSize (by omega)
    rw [if_pos hG, getD_set_self _ _ _ _ (by rw [reallocBuf_length]; omega)]
  · rw [if_neg hG, getD_set_self _ _ _ _ (by omega)]

/-- C4: slot reuse is LIFO: whenever a pool `p` has `NPar_Inactive > 0`,
`AddOneParticle` assigns the most recently pushed ID of `InactiveParList`
(index `NPar_Inactive-1`) and decrements `NPar_Inactive`; and for every
well-formed pool `p2` — its free list may be empty, as in a fully active
pool — and every valid `ParID`, `RemoveOneParticle(ParID, ...)` followed
immediately by `AddOneParticle` places the new particle in slot
`ParID`. -/
theorem c4_lifo_reuse (p p2 q : Particle_t) (nv np : List ℚ) (lv ParID lv2 : Int)
    (Marker : ℚ) (ad : Option ℚ) (a bv bv2 : ℚ) (d2 : Option ℚ)
    (hWF : WF p) (hI : 0 < p.NPar_Inactive)
    (hWF2 : WF p2) (hpv2 : p2.ParVar ≠ [])
    (hrem : RemoveOneParticle p2 ParID Marker lv2 ad bv2 = .ok (q, d2)) :
    (∃ r d, AddOneParticle p nv np lv (some a) bv =
        .ok (r, d, p.InactiveParList.getD (p.NPar_Inactive - 1).toNat 0) ∧
        r.NPar_Inactive = p.NPar_Inactive - 1) ∧
    (∃ r d, AddOneParticle q nv np lv (some a) bv = .ok (r, d, ParID) ∧
        r.NPar_Inactive = p2.NPar_Inactive ∧
        r.Mass.getD ParID.toNat 0 = nv.getD PAR_MASS 0) := by
  constructor
  · have hadd := AddOneParticle_WF_ok nv np lv a bv hWF
    rw [addTarget_pos hI] at hadd
    exact ⟨_, _, hadd, rfl⟩
  · have hWFq := WF_remove hWF2 hrem
    obtain ⟨-, -, -, hq, -⟩ := RemoveOneParticle_ok_inv hrem
    have hfld := removeStep_fields p2 ParID Marker lv2
    have hpvq : q.ParVar ≠ [] := by
      rw [hq, hfld.2.2.2.2.2]
      intro hnil
      have := congrArg List.length hnil
      rw [List.length_set] at this
      exact hpv2 (List.length_eq_zero.mp this)
    have hIq : 0 < q.NPar_Inactive := by
      rw [hq, hfld.2.1]
      have := hWF2.2.1
      omega
    have hmb := addTarget_mass_bound hWFq hpvq
    have hadd := AddOneParticle_WF_ok nv np lv a bv hWFq
    rw [addTarget_pos hIq] at hadd hmb
    have hidx : (q.NPar_Inactive - 1).toNat = p2.NPar_Inactive.toNat := by
      rw [hq, hfld.2.1]
      omega
    have hpop : q.InactiveParList.getD (q.NPar_Inactive - 1).toNat 0 = ParID := by
      rw [hidx, hq, removeStep_top ParID Marker lv2 hWF2]
    rw [hpop] at hadd hmb
    refine ⟨_, _, hadd, ?_, ?_⟩
    · show q.NPar_Inactive - 1 = p2.NPar_Inactive
      rw [hq, hfld.2.1]
      omega
    · show ((setEach q.ParVar nv ParID.toNat).getD PAR_MASS []).getD ParID.toNat 0 =
        nv.getD PAR_MASS 0
      exact setEach_mass_read _ _ _ hmb.1 hmb.2

/-- A fully active pool: one particle, empty free list
(`NPar_Inactive = 0`), exercising spec Scenario C for the witness. -/
def c4p2 : Particle_t :=
  (applyOp exQ (PoolOp.add exNV [] 0 (some 0) 1)).toOption.getD exP

def c4q : Particle_t :=
  ((RemoveOneParticle c4p2 0 PAR_INACTIVE_MPI 0 none 1).toOption.getD (exP, none)).1

theorem c4_lifo_reuse_witness :
    (∃ r d, AddOneParticle c1r exNV [] 0 (some 3) 1 =
        .ok (r, d, c1r.InactiveParList.getD (c1r.NPar_Inactive - 1).toNat 0) ∧
        r.NPar_Inactive = c1r.NPar_Inactive - 1) ∧
    (∃ r d, AddOneParticle c4q exNV [] 0 (some 3) 1 = .ok (r, d, 0) ∧
        r.NPar_Inactive = c4p2.NPar_Inactive ∧
        r.Mass.getD (0 : Int).toNat 0 = exNV.getD PAR_MASS 0) :=
  c4_lifo_reuse c1r c4p2 c4q exNV [] 0 0 0 PAR_INACTIVE_MPI none 3 1 1 none
    (by unfold WF; decide) (by decide) (by unfold WF; decide) (by decide) rfl

/-! ## C5 -/

lemma getD_map_realloc (bufs : List (List ℚ)) (newLen v : Nat) (hv : v < bufs.length) :
    (bufs.map (fun b => reallocBuf b 0 newLen)).getD v [] =
      reallocBuf (bufs.getD v []) 0 newLen := by
  rw [List.getD_eq_getElem _ _ (by simpa using hv), List.getElem_map,
    List.getD_eq_getElem _ _ hv]

lemma getD_mem_of_lt (bufs : List (List ℚ)) (v : Nat) (hv : v < bufs.length) :
    bufs.getD v [] ∈ bufs := by
  rw [List.getD_eq_getElem _ _ hv]
  exact List.getElem_mem hv

/-- Growing then writing slot `pid` leaves every previously allocated cell
`i < cap`, `i ≠ pid`, of every buffer unchanged. -/
lemma setEach_realloc_preserve (bufs : List (List ℚ)) (nv : List ℚ)
    (cap newLen pid i v : Nat)
    (hlen : ∀ b ∈ bufs, b.length = cap) (hi : i < cap) (hin : i < newLen)
    (hpid : i ≠ pid) :
    ((setEach (bufs.map (fun b => reallocBuf b 0 newLen)) nv pid).getD v []).getD i 0 =
      (bufs.getD v []).getD i 0 := by
  by_cases hv : v < bufs.length
  · have hblen : (bufs.getD v []).length = cap := hlen _ (getD_mem_of_lt bufs v hv)
    rw [setEach_getD _ _ _ v (by simpa using hv), getD_map_realloc bufs newLen v hv,
      getD_set_ne _ (fun hcon => hpid hcon.symm),
      reallocBuf_getD_lt _ _ _ _ _ (by omega) hin]
  · have h1 : (setEach (bufs.map (fun b => reallocBuf b 0 newLen)) nv pid).getD v [] = [] :=
      List.getD_eq_default _ _ (by rw [setEach_length, List.length_map]; omega)
    have h2 : bufs.getD v [] = [] := List.getD_eq_default _ _ (by omega)
    rw [h1, h2]

/-- C5: with an empty free list, if `NPar_AcPlusInac == ParListSize` then
`AddOneParticle` grows every primary and passive buffer to the new
`ParListSize = (int)ceil( 1.1*(old ParListSize + 1) )` — the
double-precision computation `ceilGrow`, which can exceed the exact
rational ceiling by one (e.g. 56 vs 55 at old size 49) — preserves all
previously stored attribute values, assigns the new particle the ID
`old NPar_AcPlusInac`, and increments `NPar_AcPlusInac`; if
`NPar_AcPlusInac < ParListSize` (state `p2`) no growth occurs. -/
theorem c5_growth (p p2 : Particle_t) (nv np nv2 np2 : List ℚ) (lv lv2 : Int)
    (a a2 bv bv2 : ℚ)
    (hWF : WF p) (hI : p.NPar_Inactive = 0) (hfull : p.NPar_AcPlusInac = p.ParListSize)
    (hWF2 : WF p2) (hI2 : p2.NPar_Inactive = 0)
    (hroom : p2.NPar_AcPlusInac < p2.ParListSize) :
    (∃ r d, AddOneParticle p nv np lv (some a) bv = .ok (r, d, p.NPar_AcPlusInac) ∧
      r.NPar_AcPlusInac = p.NPar_AcPlusInac + 1 ∧
      r.ParListSize = ceilGrow p.ParListSize ∧
      (∀ b ∈ r.ParVar, b.length = (ceilGrow p.ParListSize).toNat) ∧
      (∀ b ∈ r.Passive, b.length = (ceilGrow p.ParListSize).toNat) ∧
      (∀ v : Nat, ∀ i < p.ParListSize.toNat,
        (r.ParVar.getD v []).getD i 0 = (p.ParVar.getD v []).getD i 0) ∧
      (∀ v : Nat, ∀ i < p.ParListSize.toNat,
        (r.Passive.getD v []).getD i 0 = (p.Passive.getD v []).getD i 0)) ∧
    (∃ r d, AddOneParticle p2 nv2 np2 lv2 (some a2) bv2 =
        .ok (r, d, p2.NPar_AcPlusInac) ∧
      r.NPar_AcPlusInac = p2.NPar_AcPlusInac + 1 ∧
      r.ParListSize = p2.ParListSize) := by
  obtain ⟨hAc, hIn, hSum, hCap, hVar, hPas, hILL, hICap, hIds⟩ := hWF
  constructor
  · have hadd := AddOneParticle_WF_ok nv np lv a bv
      ⟨hAc, hIn, hSum, hCap, hVar, hPas, hILL, hICap, hIds⟩
    rw [addTarget_full (by omega) (by omega)] at hadd
    have hce := ceilGrow_ge p.ParListSize (by omega)
    refine ⟨_, _, hadd, ?_, ?_, ?_, ?_, ?_, ?_⟩
    · show p.NPar_AcPlusInac + 1 = p.NPar_AcPlusInac + 1
      rfl
    · show ceilGrow p.ParListSize = ceilGrow p.ParListSize
      rfl
    · show ∀ b ∈ setEach
          (List.map (fun b => reallocBuf b 0 (ceilGrow p.ParListSize).toNat) p.ParVar)
          nv p.NPar_AcPlusInac.toNat, b.length = (ceilGrow p.ParListSize).toNat
      intro b hb
      obtain ⟨c, hc, hlen⟩ := setEach_exists_src b hb
      simp only [List.mem_map] at hc
      obtain ⟨e, -, hfe⟩ := hc
      rw [hlen, ← hfe, reallocBuf_length]
    · show ∀ b ∈ setEach
          (List.map (fun b => reallocBuf b 0 (ceilGrow p.ParListSize).toNat) p.Passive)
          np p.NPar_AcPlusInac.toNat, b.length = (ceilGrow p.ParListSize).toNat
      intro b hb
      obtain ⟨c, hc, hlen⟩ := setEach_exists_src b hb
      simp only [List.mem_map] at hc
      obtain ⟨e, -, hfe⟩ := hc
      rw [hlen, ← hfe, reallocBuf_length]
    · intro v i hi
      exact setEach_realloc_preserve p.ParVar nv p.ParListSize.toNat
        (ceilGrow p.ParListSize).toNat p.NPar_AcPlusInac.toNat i v hVar hi
        (by omega) (by omega)
    · intro v i hi
      exact setEach_realloc_preserve p.Passive np p.ParListSize.toNat
        (ceilGrow p.ParListSize).toNat p.NPar_AcPlusInac.toNat i v hPas hi
        (by omega) (by omega)
  · have hadd := AddOneParticle_WF_ok nv2 np2 lv2 a2 bv2 hWF2
    rw [addTarget_room (by omega) (by omega)] at hadd
    exact ⟨_, _, hadd, rfl, rfl⟩

def c5p2 : Particle_t :=
  (applyOp exQ (PoolOp.add exNV [] 0 (some 0) 1)).toOption.getD exP

theorem c5_growth_witness :
    (∃ r d, AddOneParticle exQ exNV [] 0 (some 3) 1 = .ok (r, d, exQ.NPar_AcPlusInac) ∧
      r.NPar_AcPlusInac = exQ.NPar_AcPlusInac + 1 ∧
      r.ParListSize = ceilGrow exQ.ParListSize ∧
      (∀ b ∈ r.ParVar, b.length = (ceilGrow exQ.ParListSize).toNat) ∧
      (∀ b ∈ r.Passive, b.length = (ceilGrow exQ.ParListSize).toNat) ∧
      (∀ v : Nat, ∀ i < exQ.ParListSize.toNat,
        (r.ParVar.getD v []).getD i 0 = (exQ.ParVar.getD v []).getD i 0) ∧
      (∀ v : Nat, ∀ i < exQ.ParListSize.toNat,
        (r.Passive.getD v []).getD i 0 = (exQ.Passive.getD v []).getD i 0)) ∧
    (∃ r d, AddOneParticle c5p2 exNV [] 1 (some 5) 1 =
        .ok (r, d, c5p2.NPar_AcPlusInac) ∧
      r.NPar_AcPlusInac = c5p2.NPar_AcPlusInac + 1 ∧
      r.ParListSize = c5p2.ParListSize) :=
  c5_growth exQ c5p2 exNV [] exNV [] 0 1 3 5 1 1
    (by unfold WF; decide) (by decide) (by decide)
    (by unfold WF; decide) (by decide) (by decide)

/-! ## C6 -/

/-- C6: `RemoveOneParticle` performs no check that the target slot is
active: for every `ParID` in `[0, NPar_AcPlusInac)` — regardless of the
slot's mass — the call pushes `ParID` onto `InactiveParList`, decrements
`NPar_Active` and increments `NPar_Inactive`, and a second removal of the
same `ParID` without an intervening Add is not rejected either. -/
theorem c6_no_active_check (p : Particle_t) (ParID lv lv2 : Int) (Marker Marker2 : ℚ)
    (ad ad2 : Option ℚ) (bv bv2 : ℚ)
    (hWF : WF p) (h1 : 0 ≤ ParID) (h2 : ParID < p.NPar_AcPlusInac)
    (hmk : Marker = PAR_INACTIVE_OUTSIDE ∨ Marker = PAR_INACTIVE_MPI)
    (hmk2 : Marker2 = PAR_INACTIVE_OUTSIDE ∨ Marker2 = PAR_INACTIVE_MPI) :
    ∃ r d, RemoveOneParticle p ParID Marker lv ad bv = .ok (r, d) ∧
      r.InactiveParList.getD p.NPar_Inactive.toNat 0 = ParID ∧
      r.NPar_Active = p.NPar_Active - 1 ∧
      r.NPar_Inactive = p.NPar_Inactive + 1 ∧
      ∃ r2 d2, RemoveOneParticle r ParID Marker2 lv2 ad2 bv2 = .ok (r2, d2) ∧
        r2.NPar_Active = p.NPar_Active - 2 ∧
        r2.NPar_Inactive = p.NPar_Inactive + 2 := by
  have hrem := RemoveOneParticle_ok ParID Marker lv ad bv h1 h2 hmk hWF.2.2.1
  have hfld := removeStep_fields p ParID Marker lv
  have hWFr := WF_remove hWF hrem
  have hrem2 := RemoveOneParticle_ok (p := removeStep p ParID Marker lv)
    ParID Marker2 lv2 ad2 bv2 h1 (by rw [hfld.2.2.1]; exact h2) hmk2 hWFr.2.2.1
  have hfld2 := removeStep_fields (removeStep p ParID Marker lv) ParID Marker2 lv2
  refine ⟨_, _, hrem, removeStep_top ParID Marker lv hWF, hfld.1, hfld.2.1,
    _, _, hrem2, ?_, ?_⟩
  · rw [hfld2.1, hfld.1]
    omega
  · rw [hfld2.2.1, hfld.2.1]
    omega

theorem c6_no_active_check_witness :
    ∃ r d, RemoveOneParticle c1r 0 PAR_INACTIVE_OUTSIDE 0 none 1 = .ok (r, d) ∧
      r.InactiveParList.getD c1r.NPar_Inactive.toNat 0 = 0 ∧
      r.NPar_Active = c1r.NPar_Active - 1 ∧
      r.NPar_Inactive = c1r.NPar_Inactive + 1 ∧
      ∃ r2 d2, RemoveOneParticle r 0 PAR_INACTIVE_MPI 1 none 1 = .ok (r2, d2) ∧
        r2.NPar_Active = c1r.NPar_Active - 2 ∧
        r2.NPar_Inactive = c1r.NPar_Inactive + 2 :=
  c6_no_active_check c1r 0 0 1 PAR_INACTIVE_OUTSIDE PAR_INACTIVE_MPI none none 1 1
    (by unfold WF; decide) (by decide) (by decide) (Or.inl rfl) (Or.inr rfl)

/-! ## C7 -/

/-- C7: `InitVar` with `NPar_AcPlusInac >= 0` and a supported `Interp`
succeeds and establishes `NPar_Active = NPar_AcPlusInac`,
`NPar_Inactive = 0`, `ParListSize = NPar_AcPlusInac` (buffers sized exactly
to the starting slot count), and `GhostSize` 0 for NGP and 1 for CIC/TSC;
in particular `NPar_AcPlusInac = 0` yields `ParListSize = 0` and
`NPar_Active = 0` (see the witness). -/
theorem c7_initVar (p : Particle_t) (hA : 0 ≤ p.NPar_AcPlusInac)
    (hInt : p.Interp = ParInterp_t.NGP ∨ p.Interp = ParInterp_t.CIC ∨
      p.Interp = ParInterp_t.TSC) :
    ∃ q, InitVar p = .ok q ∧
      q.NPar_Active = p.NPar_AcPlusInac ∧ q.NPar_Inactive = 0 ∧
      q.ParListSize = p.NPar_AcPlusInac ∧
      (∀ b ∈ q.ParVar, b.length = p.NPar_AcPlusInac.toNat) ∧
      (∀ b ∈ q.Passive, b.length = p.NPar_AcPlusInac.toNat) ∧
      (p.Interp = ParInterp_t.NGP → q.GhostSize = 0) ∧
      (p.Interp = ParInterp_t.CIC → q.GhostSize = 1) ∧
      (p.Interp = ParInterp_t.TSC → q.GhostSize = 1) := by
  have hok : ∃ q, InitVar p = .ok q := by
    simp only [InitVar]
    rw [if_neg (by omega), if_neg (by
      rcases hInt with h | h | h <;> simp [h])]
    exact ⟨_, rfl⟩
  obtain ⟨q, hq⟩ := hok
  obtain ⟨f1, f2, f3, -, -, f6, f7, -, f9, f10, f11⟩ := InitVar_fields hq
  exact ⟨q, hq, f1, f2, f3, f6, f7, f9, f10, f11⟩

theorem c7_initVar_witness :
    ∃ q, InitVar exP = .ok q ∧
      q.NPar_Active = exP.NPar_AcPlusInac ∧ q.NPar_Inactive = 0 ∧
      q.ParListSize = exP.NPar_AcPlusInac ∧
      (∀ b ∈ q.ParVar, b.length = exP.NPar_AcPlusInac.toNat) ∧
      (∀ b ∈ q.Passive, b.length = exP.NPar_AcPlusInac.toNat) ∧
      (exP.Interp = ParInterp_t.NGP → q.GhostSize = 0) ∧
      (exP.Interp = ParInterp_t.CIC → q.GhostSize = 1) ∧
      (exP.Interp = ParInterp_t.TSC → q.GhostSize = 1) :=
  c7_initVar exP (by decide) (Or.inl rfl)

/-! ## C8 -/

/-- C8: in the checked build, `RemoveOneParticle`'s validation fails with
`WrongParID` exactly on an out-of-range `ParID` (`ParID < 0` or
`ParID >= NPar_AcPlusInac`), fails with `UnsupportedMarker` on an in-range
`ParID` with a marker that is neither `PAR_INACTIVE_OUTSIDE` nor
`PAR_INACTIVE_MPI`, and passes (the removal proceeds) for every in-range
`ParID` with one of the two reserved markers. -/
theorem c8_remove_validation (p : Particle_t) (id1 id2 id3 lv : Int)
    (mk1 mk2 mk3 : ℚ) (ad : Option ℚ) (bv : ℚ) (hWF : WF p)
    (hbad1 : id1 < 0 ∨ p.NPar_AcPlusInac ≤ id1)
    (h2a : 0 ≤ id2) (h2b : id2 < p.NPar_AcPlusInac)
    (hmk2 : mk2 ≠ PAR_INACTIVE_OUTSIDE ∧ mk2 ≠ PAR_INACTIVE_MPI)
    (h3a : 0 ≤ id3) (h3b : id3 < p.NPar_AcPlusInac)
    (hmk3 : mk3 = PAR_INACTIVE_OUTSIDE ∨ mk3 = PAR_INACTIVE_MPI) :
    RemoveOneParticle p id1 mk1 lv ad bv = .error .WrongParID ∧
    RemoveOneParticle p id2 mk2 lv ad bv = .error .UnsupportedMarker ∧
    RemoveOneParticle p id3 mk3 lv ad bv =
      .ok (removeStep p id3 mk3 lv, removeDens p id3 ad bv) := by
  refine ⟨?_, ?_, RemoveOneParticle_ok id3 mk3 lv ad bv h3a h3b hmk3 hWF.2.2.1⟩
  · simp only [RemoveOneParticle]
    rw [if_pos hbad1]
  · simp only [RemoveOneParticle]
    rw [if_neg (by omega), if_pos hmk2]

theorem c8_remove_validation_witness :
    RemoveOneParticle c1r 5 PAR_INACTIVE_OUTSIDE 0 none 1 = .error .WrongParID ∧
    RemoveOneParticle c1r 0 (-3) 0 none 1 = .error .UnsupportedMarker ∧
    RemoveOneParticle c1r 0 PAR_INACTIVE_OUTSIDE 0 none 1 =
      .ok (removeStep c1r 0 PAR_INACTIVE_OUTSIDE 0, removeDens c1r 0 none 1) :=
  c8_remove_validation c1r 5 0 0 0 PAR_INACTIVE_OUTSIDE (-3) PAR_INACTIVE_OUTSIDE
    none 1 (by unfold WF; decide) (by decide) (by decide) (by decide)
    (by decide) (by decide) (by decide) (Or.inl rfl)

/-! ## C9 -/

lemma addTarget_pid_range {p : Particle_t} (hWF : WF p) :
    0 ≤ (addTarget p).2 ∧ (addTarget p).2 < (addTarget p).1.NPar_AcPlusInac := by
  by_cases hI : 0 < p.NPar_Inactive
  · have hpop := WF_pop_valid hWF hI
    rw [addTarget_pos hI] at hpop ⊢
    exact ⟨hpop.1, hpop.2⟩
  · have hAc := hWF.1
    by_cases hG : p.ParListSize ≤ p.NPar_AcPlusInac
    · rw [addTarget_full hI hG]
      refine ⟨hAc, ?_⟩
      show p.NPar_AcPlusInac < p.NPar_AcPlusInac + 1
      omega
    · rw [addTarget_room hI hG]
      refine ⟨hAc, ?_⟩
      show p.NPar_AcPlusInac < p.NPar_AcPlusInac + 1
      omega

/-- C9: `AddOneParticle` with mass `NewVar[PAR_MASS]` (accumulator
supplied) followed by `RemoveOneParticle` of the slot just assigned, with
the accumulator produced by the Add and the same `_BoxVolume`, returns the
accumulator exactly to its pre-Add value `a` (exact rational arithmetic):
the Remove subtracts `Mass[ParID]*_BoxVolume` before overwriting the
mass. -/
theorem c9_density_roundtrip (p : Particle_t) (nv np : List ℚ) (lv lv2 : Int)
    (Marker : ℚ) (a bv : ℚ)
    (hWF : WF p) (hpv : p.ParVar ≠ [])
    (hmk : Marker = PAR_INACTIVE_OUTSIDE ∨ Marker = PAR_INACTIVE_MPI) :
    ∃ r d pid, AddOneParticle p nv np lv (some a) bv = .ok (r, d, pid) ∧
      ∃ r2, RemoveOneParticle r pid Marker lv2 d bv = .ok (r2, some a) := by
  have hadd := AddOneParticle_WF_ok nv np lv a bv hWF
  have hWFr : WF (addRecord (addTarget p).1 nv np lv (addTarget p).2 (some a) bv).1 :=
    WF_add hWF (by rw [hadd])
  obtain ⟨hr0, hr1⟩ := addTarget_pid_range hWF
  have hmassr : (addRecord (addTarget p).1 nv np lv (addTarget p).2 (some a) bv).1.Mass.getD
      ((addTarget p).2).toNat 0 = nv.getD PAR_MASS 0 := by
    obtain ⟨h0, hib⟩ := addTarget_mass_bound hWF hpv
    show ((setEach (addTarget p).1.ParVar nv ((addTarget p).2).toNat).getD PAR_MASS []).getD
        ((addTarget p).2).toNat 0 = nv.getD PAR_MASS 0
    exact setEach_mass_read _ _ _ h0 hib
  have hrem := RemoveOneParticle_ok
    (p := (addRecord (addTarget p).1 nv np lv (addTarget p).2 (some a) bv).1)
    (addTarget p).2 Marker lv2
    ((addRecord (addTarget p).1 nv np lv (addTarget p).2 (some a) bv).2.1) bv
    hr0 hr1 hmk hWFr.2.2.1
  have hsub : removeDens (addRecord (addTarget p).1 nv np lv (addTarget p).2 (some a) bv).1
      (addTarget p).2
      ((addRecord (addTarget p).1 nv np lv (addTarget p).2 (some a) bv).2.1) bv =
      some a := by
    have hd := addRecord_dens_eq nv np lv a bv hWF hpv
    unfold removeDens
    rw [hd, Option.map_some', hmassr, add_sub_cancel_right]
  rw [hsub] at hrem
  exact ⟨_, _, _, hadd, _, hrem⟩

theorem c9_density_roundtrip_witness :
    ∃ r d pid, AddOneParticle c1r exNV [] 0 (some 7) (1/2) = .ok (r, d, pid) ∧
      ∃ r2, RemoveOneParticle r pid PAR_INACTIVE_MPI 0 d (1/2) = .ok (r2, some 7) :=
  c9_density_roundtrip c1r exNV [] 0 0 PAR_INACTIVE_MPI 7 (1/2)
    (by unfold WF; decide) (by decide) (Or.inr rfl)

/-! ## C10 -/

lemma removeStep_misc (p : Particle_t) (ParID : Int) (mk : ℚ) (lv : Int) :
    (removeStep p ParID mk lv).GhostSize = p.GhostSize ∧
    (removeStep p ParID mk lv).Interp = p.Interp ∧
    (removeStep p ParID mk lv).Init = p.Init ∧
    (removeStep p ParID mk lv).Integ = p.Integ ∧
    (removeStep p ParID mk lv).SyncDump = p.SyncDump ∧
    (removeStep p ParID mk lv).ImproveAcc = p.ImproveAcc ∧
    (removeStep p ParID mk lv).PredictPos = p.PredictPos ∧
    (removeStep p ParID mk lv).RemoveCell = p.RemoveCell ∧
    (removeStep p ParID mk lv).NPar_Active_AllRank = p.NPar_Active_AllRank := by
  rw [removeStep_eq]
  exact ⟨rfl, rfl, rfl, rfl, rfl, rfl, rfl, rfl, rfl⟩

def c10r : Particle_t :=
  ((RemoveOneParticle c1r 0 PAR_INACTIVE_OUTSIDE NULL_INT none 1).toOption.getD
    (exP, none)).1

/-- C10 counterexample: when the free list is full
(`NPar_Inactive == InactiveParListSize`, here both 1), `RemoveOneParticle`
also writes `InactiveParListSize` (growing it to `ceil(1.1*(1+1)) = 3`),
which the claim's frame ("besides the buffers it writes only
`InactiveParList[old NPar_Inactive]` and the three counters") omits. -/
theorem c10_counterexample :
    RemoveOneParticle c1r 0 PAR_INACTIVE_OUTSIDE NULL_INT none 1 = .ok (c10r, none) ∧
    c1r.NPar_Inactive = c1r.InactiveParListSize ∧
    c1r.InactiveParListSize = 1 ∧ c10r.InactiveParListSize = 3 ∧
    ¬ c10r.InactiveParListSize = c1r.InactiveParListSize :=
  ⟨rfl, by decide, by decide, by decide, by decide⟩

/-- C10 (amended): a valid `RemoveOneParticle` leaves every entry of every
primary and passive buffer unchanged except `Mass[ParID]`, which becomes
`Marker` (stale position/velocity/time/passive data are retained); besides
the buffers it writes only `InactiveParList[old NPar_Inactive]`, the
counters `NPar_Active`, `NPar_Inactive`, and — only when `lv != NULL_INT` —
`NPar_Lv[lv]`, and, when the free list is full
(`InactiveParListSize <= NPar_Inactive`), it also grows
`InactiveParListSize` to `ceil(1.1*(InactiveParListSize+1))`, reallocating
`InactiveParList` while preserving its existing entries. -/
theorem c10_remove_frame (p : Particle_t) (ParID lv : Int) (Marker : ℚ)
    (ad : Option ℚ) (bv : ℚ)
    (hWF : WF p) (hpv : p.ParVar ≠ [])
    (h1 : 0 ≤ ParID) (h2 : ParID < p.NPar_AcPlusInac)
    (hmk : Marker = PAR_INACTIVE_OUTSIDE ∨ Marker = PAR_INACTIVE_MPI) :
    RemoveOneParticle p ParID Marker lv ad bv =
      .ok (removeStep p ParID Marker lv, removeDens p ParID ad bv) ∧
    (removeStep p ParID Marker lv).ParVar =
      p.ParVar.set PAR_MASS (p.Mass.set ParID.toNat Marker) ∧
    (removeStep p ParID Marker lv).Passive = p.Passive ∧
    (removeStep p ParID Marker lv).Mass.getD ParID.toNat 0 = Marker ∧
    (∀ i : Nat, i ≠ ParID.toNat →
      (removeStep p ParID Marker lv).Mass.getD i 0 = p.Mass.getD i 0) ∧
    (∀ v : Nat, v ≠ PAR_MASS →
      (removeStep p ParID Marker lv).ParVar.getD v [] = p.ParVar.getD v []) ∧
    (removeStep p ParID Marker lv).NPar_Active = p.NPar_Active - 1 ∧
    (removeStep p ParID Marker lv).NPar_Inactive = p.NPar_Inactive + 1 ∧
    (removeStep p ParID Marker lv).NPar_AcPlusInac = p.NPar_AcPlusInac ∧
    (removeStep p ParID Marker lv).ParListSize = p.ParListSize ∧
    (removeStep p ParID Marker lv).GhostSize = p.GhostSize ∧
    (removeStep p ParID Marker lv).Interp = p.Interp ∧
    (removeStep p ParID Marker lv).Init = p.Init ∧
    (removeStep p ParID Marker lv).Integ = p.Integ ∧
    (removeStep p ParID Marker lv).SyncDump = p.SyncDump ∧
    (removeStep p ParID Marker lv).ImproveAcc = p.ImproveAcc ∧
    (removeStep p ParID Marker lv).PredictPos = p.PredictPos ∧
    (removeStep p ParID Marker lv).RemoveCell = p.RemoveCell ∧
    (removeStep p ParID Marker lv).NPar_Active_AllRank = p.NPar_Active_AllRank ∧
    (lv = NULL_INT → (removeStep p ParID Marker lv).NPar_Lv = p.NPar_Lv) ∧
    (lv ≠ NULL_INT → (removeStep p ParID Marker lv).NPar_Lv =
      p.NPar_Lv.set lv.toNat (p.NPar_Lv.getD lv.toNat 0 - 1)) ∧
    (∀ i < p.NPar_Inactive.toNat,
      (removeStep p ParID Marker lv).InactiveParList.getD i 0 =
        p.InactiveParList.getD i 0) ∧
    (removeStep p ParID Marker lv).InactiveParList.getD p.NPar_Inactive.toNat 0 =
      ParID ∧
    (p.NPar_Inactive < p.InactiveParListSize →
      (removeStep p ParID Marker lv).InactiveParListSize = p.InactiveParListSize) ∧
    (p.InactiveParListSize ≤ p.NPar_Inactive →
      (removeStep p ParID Marker lv).InactiveParListSize =
        ceilGrow p.InactiveParListSize) := by
  obtain ⟨hAc, hIn, hSum, hCap, hVar, hPas, hILL, hICap, hIds⟩ := hWF
  have hfld := removeStep_fields p ParID Marker lv
  have hmisc := removeStep_misc p ParID Marker lv
  have hpv0 : PAR_MASS < p.ParVar.length := by
    unfold PAR_MASS
    exact List.length_pos.mpr hpv
  have hml : p.Mass.length = p.ParListSize.toNat := hVar _ (Mass_mem hpv)
  have houter : (removeStep p ParID Marker lv).Mass = p.Mass.set ParID.toNat Marker := by
    show (removeStep p ParID Marker lv).ParVar.getD PAR_MASS [] = _
    rw [hfld.2.2.2.2.2]
    exact getD_set_self _ _ _ _ hpv0
  refine ⟨RemoveOneParticle_ok ParID Marker lv ad bv h1 h2 hmk hSum,
    hfld.2.2.2.2.2, hfld.2.2.2.2.1, ?_, ?_, ?_, hfld.1, hfld.2.1, hfld.2.2.1,
    hfld.2.2.2.1, hmisc.1, hmisc.2.1, hmisc.2.2.1, hmisc.2.2.2.1, hmisc.2.2.2.2.1,
    hmisc.2.2.2.2.2.1, hmisc.2.2.2.2.2.2.1, hmisc.2.2.2.2.2.2.2.1,
    hmisc.2.2.2.2.2.2.2.2, ?_, ?_, ?_, removeStep_top ParID Marker lv
      ⟨hAc, hIn, hSum, hCap, hVar, hPas, hILL, hICap, hIds⟩, ?_, ?_⟩
  · rw [houter]
    exact getD_set_self _ _ _ _ (by omega)
  · intro i hi
    rw [houter]
    exact getD_set_ne _ (fun hcon => hi hcon.symm) _ _
  · intro v hv
    rw [hfld.2.2.2.2.2]
    exact getD_set_ne _ (fun hcon => hv hcon.symm) _ _
  · intro h
    rw [removeStep_eq]
    show (if lv ≠ NULL_INT then _ else p.NPar_Lv) = p.NPar_Lv
    rw [if_neg (by simp [h])]
  · intro h
    rw [removeStep_eq]
    show (if lv ≠ NULL_INT then
      p.NPar_Lv.set lv.toNat (p.NPar_Lv.getD lv.toNat 0 - 1) else p.NPar_Lv) = _
    rw [if_pos h]
  · intro i hi
    rw [removeStep_eq]
    by_cases hG : p.InactiveParListSize ≤ p.NPar_Inactive
    · show ((if p.InactiveParListSize ≤ p.NPar_Inactive then
          reallocBuf p.InactiveParList 0 (ceilGrow p.InactiveParListSize).toNat
        else p.InactiveParList).set p.NPar_Inactive.toNat ParID).getD i 0 = _
      rw [if_pos hG, getD_set_ne _ (by omega),
        reallocBuf_getD_lt _ _ _ _ _ (by omega) (by
          have := ceilGrow_ge p.InactiveParListSize (by omega)
          omega)]
    · show ((if p.InactiveParListSize ≤ p.NPar_Inactive then
          reallocBuf p.InactiveParList 0 (ceilGrow p.InactiveParListSize).toNat
        else p.InactiveParList).set p.NPar_Inactive.toNat ParID).getD i 0 = _
      rw [if_neg hG, getD_set_ne _ (by omega)]
  · intro h
    rw [removeStep_eq]
    show (if p.InactiveParListSize ≤ p.NPar_Inactive then ceilGrow p.InactiveParListSize
      else p.InactiveParListSize) = _
    rw [if_neg (by omega)]
  · intro h
    rw [removeStep_eq]
    show (if p.InactiveParListSize ≤ p.NPar_Inactive then ceilGrow p.InactiveParListSize
      else p.InactiveParListSize) = _
    rw [if_pos h]

theorem c10_remove_frame_witness :
    RemoveOneParticle c1r 0 PAR_INACTIVE_OUTSIDE 0 none 1 =
      .ok (removeStep c1r 0 PAR_INACTIVE_OUTSIDE 0, removeDens c1r 0 none 1) ∧
    (removeStep c1r 0 PAR_INACTIVE_OUTSIDE 0).ParVar =
      c1r.ParVar.set PAR_MASS (c1r.Mass.set (0 : Int).toNat PAR_INACTIVE_OUTSIDE) ∧
    (removeStep c1r 0 PAR_INACTIVE_OUTSIDE 0).Passive = c1r.Passive ∧
    (removeStep c1r 0 PAR_INACTIVE_OUTSIDE 0).Mass.getD (0 : Int).toNat 0 =
      PAR_INACTIVE_OUTSIDE ∧
    (∀ i : Nat, i ≠ (0 : Int).toNat →
      (removeStep c1r 0 PAR_INACTIVE_OUTSIDE 0).Mass.getD i 0 = c1r.Mass.getD i 0) ∧
    (∀ v : Nat, v ≠ PAR_MASS →
      (removeStep c1r 0 PAR_INACTIVE_OUTSIDE 0).ParVar.getD v [] =
        c1r.ParVar.getD v []) ∧
    (removeStep c1r 0 PAR_INACTIVE_OUTSIDE 0).NPar_Active = c1r.NPar_Active - 1 ∧
    (removeStep c1r 0 PAR_INACTIVE_OUTSIDE 0).NPar_Inactive = c1r.NPar_Inactive + 1 ∧
    (removeStep c1r 0 PAR_INACTIVE_OUTSIDE 0).NPar_AcPlusInac = c1r.NPar_AcPlusInac ∧
    (removeStep c1r 0 PAR_INACTIVE_OUTSIDE 0).ParListSize = c1r.ParListSize ∧
    (removeStep c1r 0 PAR_INACTIVE_OUTSIDE 0).GhostSize = c1r.GhostSize ∧
    (removeStep c1r 0 PAR_INACTIVE_OUTSIDE 0).Interp = c1r.Interp ∧
    (removeStep c1r 0 PAR_INACTIVE_OUTSIDE 0).Init = c1r.Init ∧
    (removeStep c1r 0 PAR_INACTIVE_OUTSIDE 0).Integ = c1r.Integ ∧
    (removeStep c1r 0 PAR_INACTIVE_OUTSIDE 0).SyncDump = c1r.SyncDump ∧
    (removeStep c1r 0 PAR_INACTIVE_OUTSIDE 0).ImproveAcc = c1r.ImproveAcc ∧
    (removeStep c1r 0 PAR_INACTIVE_OUTSIDE 0).PredictPos = c1r.PredictPos ∧
    (removeStep c1r 0 PAR_INACTIVE_OUTSIDE 0).RemoveCell = c1r.RemoveCell ∧
    (removeStep c1r 0 PAR_INACTIVE_OUTSIDE 0).NPar_Active_AllRank =
      c1r.NPar_Active_AllRank ∧
    ((0 : Int) = NULL_INT →
      (removeStep c1r 0 PAR_INACTIVE_OUTSIDE 0).NPar_Lv = c1r.NPar_Lv) ∧
    ((0 : Int) ≠ NULL_INT → (removeStep c1r 0 PAR_INACTIVE_OUTSIDE 0).NPar_Lv =
      c1r.NPar_Lv.set (0 : Int).toNat (c1r.NPar_Lv.getD (0 : Int).toNat 0 - 1)) ∧
    (∀ i < c1r.NPar_Inactive.toNat,
      (removeStep c1r 0 PAR_INACTIVE_OUTSIDE 0).InactiveParList.getD i 0 =
        c1r.InactiveParList.getD i 0) ∧
    (removeStep c1r 0 PAR_INACTIVE_OUTSIDE 0).InactiveParList.getD
      c1r.NPar_Inactive.toNat 0 = 0 ∧
    (c1r.NPar_Inactive < c1r.InactiveParListSize →
      (removeStep c1r 0 PAR_INACTIVE_OUTSIDE 0).InactiveParListSize =
        c1r.InactiveParListSize) ∧
    (c1r.InactiveParListSize ≤ c1r.NPar_Inactive →
      (removeStep c1r 0 PAR_INACTIVE_OUTSIDE 0).InactiveParListSize =
        ceilGrow c1r.InactiveParListSize) :=
  c10_remove_frame c1r 0 0 PAR_INACTIVE_OUTSIDE none 1
    (by unfold WF; decide) (by decide) (by decide) (by decide) (Or.inl rfl)
